import Mathlib

/-!
Shallow embedding of the lexer and parser of `mcc.py` (repository Miccra2/mcc).

Characters are modelled as their Python code points (`Nat`), because the
source classifies characters through `ord` comparisons (`digit`,
`upper_case`, `lower_case`).  A source text is a `List Nat`.

The Python scanner keeps `curr_char`/`next_char` alongside `cursor`;
`advance` maintains `curr_char == text[cursor]` (when `cursor < len(text)`,
else `None`) and `next_char == text[cursor+1]` likewise, and `__init__`
(`cursor = -2` followed by `advance(2)`) establishes it.  The embedding
therefore reads `text[cursor]?` / `text[cursor+1]?` directly.

Loops are embedded as fuelled structural recursions; every call site passes
fuel `text.length + 1`, which is at least the number of remaining loop
iterations (each iteration advances the cursor by at least one while the
cursor is below `text.length`).  Where running out of fuel could be
confused with a genuine result, the fuel-exhaustion branch returns the
distinguished error `PyErr.fuelOut`, and the development proves it is never
reached at the canonical fuel (see the termination theorem for C9).
-/

/-- A Python source text as the list of its character code points. -/
abbrev Text := List Nat

/-- Decode a Lean string literal into the code-point list the lexer scans. -/
def toText (s : String) : Text := s.toList.map Char.toNat

/-- `TokenKind` of `mcc.py`: a closed enumeration (the source assigns the
integers 0..16 via `iota`; the numeric values are recorded by
`tokenKindVal`). -/
inductive TokenKind where
  | undefined
  | eof
  | identifier
  | function
  | _return
  | integer
  | string
  | at
  | dotdotdot
  | comma
  | colon
  | semi_colon
  | open_paren
  | close_paren
  | open_brace
  | close_brace
deriving DecidableEq

/-- The `iota` value the source assigns to each `TokenKind` field. -/
def tokenKindVal : TokenKind → Nat
  | .undefined => 0
  | .eof => 1
  | .identifier => 2
  | .function => 3
  | ._return => 4
  | .integer => 5
  | .string => 6
  | .at => 7
  | .dotdotdot => 8
  | .comma => 9
  | .colon => 10
  | .semi_colon => 11
  | .open_paren => 12
  | .close_paren => 13
  | .open_brace => 14
  | .close_brace => 15

/-- The field name of each `TokenKind` member, as `get_kind` recovers it. -/
def tokenKindName : TokenKind → String
  | .undefined => "undefined"
  | .eof => "eof"
  | .identifier => "identifier"
  | .function => "function"
  | ._return => "_return"
  | .integer => "integer"
  | .string => "string"
  | .at => "at"
  | .dotdotdot => "dotdotdot"
  | .comma => "comma"
  | .colon => "colon"
  | .semi_colon => "semi_colon"
  | .open_paren => "open_paren"
  | .close_paren => "close_paren"
  | .open_brace => "open_brace"
  | .close_brace => "close_brace"

/-- The `Token` dataclass: `kind, begin, end, line, offset` (`end` is a
reserved word in Lean, so the field is called `endPos`). -/
structure Token where
  kind : TokenKind
  begin : Nat
  endPos : Nat
  line : Nat
  offset : Nat
deriving DecidableEq

/-- Outcomes of running a piece of `mcc.py` that does not return normally.
`exit1 msg` models `Logger.error`: the line `msg` is written to stderr and
the process exits with status 1.  `typeError` / `attributeError` /
`indexError` model the corresponding uncaught Python exceptions.
`fuelOut` is the embedding's fuel-exhaustion marker; it is proved
unreachable at the canonical fuel. -/
inductive PyErr where
  | exit1 (msg : String)
  | typeError (msg : String)
  | attributeError (msg : String)
  | indexError (msg : String)
  | fuelOut
deriving DecidableEq

/-- `Lexer.digit`: `ord(char) >= ord('0') and ord(char) <= ord('9')`. -/
def isDigit (c : Nat) : Bool := decide (48 ≤ c ∧ c ≤ 57)

/-- `Lexer.upper_case`: `ord(char) >= ord('A') and ord(char) <= ord('Z')`. -/
def isUpperCase (c : Nat) : Bool := decide (65 ≤ c ∧ c ≤ 90)

/-- `Lexer.lower_case`: `ord(char) >= ord('a') and ord(char) <= ord('z')`. -/
def isLowerCase (c : Nat) : Bool := decide (97 ≤ c ∧ c ≤ 122)

/-- `Lexer.alpha`: upper case or lower case. -/
def isAlpha (c : Nat) : Bool := isUpperCase c || isLowerCase c

/-- `Lexer.identifier_begin`: `char == '_' or alpha(char)` (`'_'` is 95). -/
def identifierBegin (c : Nat) : Bool := decide (c = 95) || isAlpha c

/-- `Lexer.identifier_end`: `identifier_begin(char) or digit(char)`. -/
def identifierEnd (c : Nat) : Bool := identifierBegin c || isDigit c

/-- The scanning state of the `Lexer`: the source text plus the mutable
fields `cursor`, `offset` (start of the current line) and `line`.  After
`__init__` the cursor is 0 (`cursor = -2` then `advance(2)`). -/
structure LexState where
  text : Text
  cursor : Nat
  offset : Nat
  line : Nat
deriving DecidableEq

/-- The line the `Lexer` writes for a positioned fault.  `Lexer.error`
passes a plain (non-f) string to `log.error`, so the printed line is the
raw template, prefixed by `Logger.error`'s `"ERROR:"` (with `sep=""`); the
placeholders are never interpolated and the actual message is dropped. -/
def lexerFaultLine : String :=
  "ERROR:\x7bself.line\x7d:\x7bself.cursor-self.offset+1\x7d:\x7bself.path\x7d:Lexer: \x7bmsg\x7d"

/-- The line-comment loop of `get_token`:
`while self.range(self.cursor) and self.curr_char != '\n': self.advance(1)`
(`'\n'` is 10).  Returns the final cursor. -/
def skipLineComment (text : Text) (cursor : Nat) : Nat → Nat
  | 0 => cursor
  | fuel + 1 =>
    match text[cursor]? with
    | some c => if c ≠ 10 then skipLineComment text (cursor + 1) fuel else cursor
    | none => cursor

/-- The integer loop of `get_token`:
`while self.range(self.cursor) and self.digit(): self.advance(1)`.
Returns the final cursor (the first non-digit position). -/
def skipDigits (text : Text) (cursor : Nat) : Nat → Nat
  | 0 => cursor
  | fuel + 1 =>
    match text[cursor]? with
    | some c => if isDigit c then skipDigits text (cursor + 1) fuel else cursor
    | none => cursor

/-- The identifier loop of `get_token`:
`while self.range(self.cursor+1) and self.identifier_end(self.text[self.cursor+1]): self.advance(1)`.
Returns the final cursor (the last identifier character). -/
def skipIdentifier (text : Text) (cursor : Nat) : Nat → Nat
  | 0 => cursor
  | fuel + 1 =>
    match text[cursor + 1]? with
    | some c =>
      if identifierEnd c then skipIdentifier text (cursor + 1) fuel else cursor
    | none => cursor

/-- The string-literal loop of `get_token`:
`while self.range(self.cursor) and self.curr_char != '"':` with
`if self.curr_char == '\\': self.advance(1)` before the unconditional
`self.advance(1)` (`'"'` is 34, `'\\'` is 92).  Returns the final cursor. -/
def skipStringLit (text : Text) (cursor : Nat) : Nat → Nat
  | 0 => cursor
  | fuel + 1 =>
    match text[cursor]? with
    | some c =>
      if c ≠ 34 then
        if c = 92 then skipStringLit text (cursor + 2) fuel
        else skipStringLit text (cursor + 1) fuel
      else cursor
    | none => cursor

/-- The whitespace/comment skipping loop at the top of `Lexer.get_token`
(`' '`=32, `'\n'`=10, `'\r'`=13, `'\t'`=9, `'/'`=47, `'*'`=42).
The line-comment arm starts its inner loop at the current cursor (the
current character is `'/'`, never a newline, so the inner loop always takes
its first step).  The block-comment arm does `advance(2)` and then runs
`while self.range(self.cursor+1) and self.curr_char != '*' and self.next_char != '/':`
whose body begins with `self.get_char(self.cursor)` — a method the Lexer
does not define — so if the loop condition holds at all, Python raises
`AttributeError` on the first iteration; otherwise the loop body never runs
and the trailing `advance(2)` executes. -/
def skipWhitespace (s : LexState) : Nat → Except PyErr LexState
  | 0 => .error .fuelOut
  | fuel + 1 =>
    match s.text[s.cursor]? with
    | none => .ok s
    | some c =>
      if c = 32 ∨ c = 10 ∨ c = 13 ∨ c = 9 then
        if c = 10 then
          skipWhitespace
            { s with line := s.line + 1, offset := s.cursor + 1, cursor := s.cursor + 1 } fuel
        else
          skipWhitespace { s with cursor := s.cursor + 1 } fuel
      else if c = 47 ∧ s.text[s.cursor + 1]? = some 47 then
        skipWhitespace
          { s with cursor := skipLineComment s.text s.cursor (s.text.length + 1) } fuel
      else if c = 47 ∧ s.text[s.cursor + 1]? = some 42 then
        if s.cursor + 2 + 1 < s.text.length ∧ s.text[s.cursor + 2]? ≠ some 42 ∧
            s.text[s.cursor + 3]? ≠ some 47 then
          .error (.attributeError "Lexer object has no attribute get_char")
        else
          skipWhitespace { s with cursor := s.cursor + 2 + 2 } fuel
      else .ok s

/-- The token-recognition `match (self.curr_char, self.next_char)` block of
`get_token`, entered with `c` the current character (cursor in range).
Returns the token kind together with the cursor value reached before the
final unconditional `self.advance(1)`.  Notable faithful details:
the `('.', '.')` arm re-checks `self.text[self.cursor+1] == '.'` (the
second dot, not a third; `'.'` is 46); the digit arm's loop stops on the
first non-digit with the cursor already past the digits; the keyword check
slices `self.text[begin:self.cursor+1]` (`"fn"` is `[102,110]`, `"return"`
is `[114,101,116,117,114,110]`); the invalid-character arm evaluates
`ord(self.next_char)` first (a `TypeError` when `next_char` is `None`) and
otherwise calls `self.error`, which prints the uninterpolated template and
exits.  The match is embedded in three pieces: `keywordReclassify` (the
`match self.text[begin:self.cursor+1]` reclassifying `"fn"`/`"return"`),
`recogniseDefault` (the `case _:` arm: digit run / identifier run /
string literal / invalid character), and `recognise` itself (the explicit
punctuation patterns in front of the `case _:` arm). -/
def keywordReclassify (lexeme : List Nat) : TokenKind :=
  if lexeme = [102, 110] then .function
  else if lexeme = [114, 101, 116, 117, 114, 110] then ._return
  else .identifier

/-- Continuation of the doc comment above `keywordReclassify`: the
`case _:` arm. -/
def recogniseDefault (s : LexState) (c : Nat) : Except PyErr (TokenKind × Nat) :=
  if isDigit c then
    .ok (.integer, skipDigits s.text s.cursor (s.text.length + 1))
  else if identifierBegin c then
    let cur := skipIdentifier s.text s.cursor (s.text.length + 1)
    .ok (keywordReclassify ((s.text.drop s.cursor).take (cur + 1 - s.cursor)), cur)
  else if c = 34 then
    .ok (.string, skipStringLit s.text (s.cursor + 1) (s.text.length + 1))
  else
    match s.text[s.cursor + 1]? with
    | some _ => .error (.exit1 lexerFaultLine)
    | none => .error (.typeError "ord() expected a character, but NoneType found")

/-- Continuation of `recognise` (the doc comment above): the explicit
punctuation patterns, with the `case _:` arm delegated to
`recogniseDefault`. -/
def recognise (s : LexState) (c : Nat) : Except PyErr (TokenKind × Nat) :=
  if c = 46 ∧ s.text[s.cursor + 1]? = some 46 then
    if s.cursor + 1 < s.text.length ∧ s.text[s.cursor + 1]? = some 46 then
      .ok (.dotdotdot, s.cursor + 2)
    else .ok (.undefined, s.cursor)
  else if c = 44 then .ok (.comma, s.cursor)
  else if c = 58 then .ok (.colon, s.cursor)
  else if c = 59 then .ok (.semi_colon, s.cursor)
  else if c = 64 then .ok (.at, s.cursor)
  else if c = 40 then .ok (.open_paren, s.cursor)
  else if c = 41 then .ok (.close_paren, s.cursor)
  else if c = 123 then .ok (.open_brace, s.cursor)
  else if c = 125 then .ok (.close_brace, s.cursor)
  else recogniseDefault s c

/-- `Lexer.get_token`: skip whitespace and comments; if the cursor is out of
range return the `eof` token `Token(eof, cursor, cursor, line, offset)`;
otherwise recognise one token, then `self.advance(1)` and return
`Token(kind, begin, cursor, line, offset)` with the line/offset current at
emission time. -/
def getToken (s0 : LexState) : Except PyErr (Token × LexState) :=
  match skipWhitespace s0 (s0.text.length + 1) with
  | .error e => .error e
  | .ok s =>
    match s.text[s.cursor]? with
    | none => .ok (⟨.eof, s.cursor, s.cursor, s.line, s.offset⟩, s)
    | some c =>
      match recognise s c with
      | .error e => .error e
      | .ok (kind, cur) =>
        .ok (⟨kind, s.cursor, cur + 1, s.line, s.offset⟩,
             { s with cursor := cur + 1 })

/-- `Lexer.tokenise`: collect tokens until `get_token` returns one of kind
`eof`; the `eof` token itself only stops the loop and is not appended. -/
def tokenise (s : LexState) : Nat → Except PyErr (List Token)
  | 0 => .error .fuelOut
  | fuel + 1 =>
    match getToken s with
    | .error e => .error e
    | .ok (t, s') =>
      if t.kind = TokenKind.eof then .ok []
      else
        match tokenise s' fuel with
        | .error e => .error e
        | .ok ts => .ok (t :: ts)

/-- Run the lexer on a source string from the initial state
(`cursor = 0` after `__init__`, `offset = 0`, `line = 1`).  The tokenise
fuel `length + 1` covers the at most `length` non-eof tokens plus the final
eof iteration. -/
def tokeniseStr (src : String) : Except PyErr (List Token) :=
  let text := toText src
  tokenise ⟨text, 0, 0, 1⟩ (text.length + 1)

/-- The `Type` dataclass of `mcc.py` (primitive type tags, assigned by
`iota`); called `Ty` because `Type` is reserved in Lean. -/
inductive Ty where
  | undefined
  | u8
  | u16
  | u32
  | u64
  | usize
  | i8
  | i16
  | i32
  | i64
  | pointer
  | array
  | string
deriving DecidableEq

/-- The `ArgumentExpr` dataclass: a typed formal parameter.  Its `value`
field has Python type `Any` and is never written by any code path the
embedded parser can reach, so it is omitted. -/
structure ArgumentExpr where
  ty : Ty := .undefined
deriving DecidableEq

/-- The `BlockExpr` dataclass.  Its `exprs` field is a list of `Expression`
records whose payload is `Any`; no reachable parser path ever constructs an
`Expression`, so the element type is irrelevant and taken as `Unit`. -/
structure BlockExpr where
  exprs : List Unit := []
deriving DecidableEq

/-- The `FuncDefExpr` dataclass: `args` and `body` (note: no `name` field is
declared; `get_function` assigns one dynamically, but it crashes before
that line). -/
structure FuncDefExpr where
  args : List ArgumentExpr := []
  body : BlockExpr := {}
deriving DecidableEq

/-- The `Program` dataclass: `externs`, `functions`, `entry`. -/
structure Program where
  externs : List FuncDefExpr := []
  functions : List FuncDefExpr := []
  entry : List FuncDefExpr := []
deriving DecidableEq

/-- The line printed by `Parser.error` for a positioned fault: `log.error`
with `sep=""` prepends `"ERROR:"` to
`f"{token.line}:{token.begin-token.offset+1}:{path}: {msg}"` (this f-string
is interpolated, unlike the Lexer's). -/
def parserFaultLine (path : String) (t : Token) (msg : String) : String :=
  "ERROR:" ++ toString t.line ++ ":" ++ toString (t.begin - t.offset + 1) ++
    ":" ++ path ++ ": " ++ msg

/-- Python `repr` of a `Token` dataclass instance, as `str(token)` yields it
when `parse`'s default arm passes the token as `log.error`'s `sep`. -/
def tokenRepr (t : Token) : String :=
  "Token(kind=" ++ toString (tokenKindVal t.kind) ++ ", begin=" ++
    toString t.begin ++ ", end=" ++ toString t.endPos ++ ", line=" ++
    toString t.line ++ ", offset=" ++ toString t.offset ++ ")"

/-- `Parser.get_function` never returns normally: its first statement after
constructing the default `FuncDefExpr` reads `self.tokens[self.cursor]`,
and `Parser` defines no attribute `cursor` (it defines `index`), so Python
raises `AttributeError` unconditionally.  The function is modelled as the
error it raises. -/
def getFunction : PyErr := .attributeError "Parser object has no attribute cursor"

/-- `Parser.get_directive` never returns normally.  When `index + 1` is out
of range it reports through `self.error` on `self.tokens[-1]` and the
process exits (for an empty token list, `tokens[-1]` itself would raise
`IndexError` — unreachable, since `parse` calls `get_directive` only after
reading `tokens[index]`).  Otherwise the statement
`match token: case TokenKind.indentifier:` evaluates the value pattern
`TokenKind.indentifier`; `TokenKind` has no field of that (misspelled)
name, so Python raises `AttributeError` before comparing anything, and the
whole `extern`/`entry` dispatch below it is dead code. -/
def getDirective (path : String) (tokens : List Token) (index : Nat) : PyErr :=
  if index + 1 < tokens.length then
    .attributeError "type object TokenKind has no attribute indentifier"
  else
    match tokens.getLast? with
    | some t => .exit1 (parserFaultLine path t "Expected directive but reached end of file!")
    | none => .indexError "list index out of range"

/-- `Parser.parse`: `while self.range(self.index):` dispatches on
`self.tokens[self.index].kind`.  Every arm of the loop body raises or exits
the process — `get_directive` and `get_function` never return normally (see
their definitions), and the default arm calls `log.error(msg, token)`
(the token lands in the `sep` parameter, so the printed line is
`"ERROR:" + str(token) + msg`) and exits — so no iteration ever completes,
`self.index` is never incremented, and `parse` returns the fresh empty
`Program` exactly when the token list is empty. -/
def parse (path : String) (tokens : List Token) : Except PyErr Program :=
  match tokens[0]? with
  | none => .ok {}
  | some t =>
    match t.kind with
    | TokenKind.at => .error (getDirective path tokens 0)
    | TokenKind.function => .error getFunction
    | _ =>
      .error (.exit1 ("ERROR:" ++ tokenRepr t ++
        "Expected a token of kind `fn` or an `@` directive, but token of kind `" ++
        tokenKindName t.kind ++ "`!"))

/-- Run the whole front end the way `main`/`Parser.__init__` wire it: the
`Parser` constructor calls `lexer.tokenise()` (any lexer fault propagates),
then `parse()` consumes the stored token list. -/
def parseStr (path src : String) : Except PyErr Program :=
  match tokeniseStr src with
  | .error e => .error e
  | .ok ts => parse path ts

/-! ### Invariant lemmas about the scanning loops -/

theorem skipLineComment_le (text : Text) (cursor fuel : Nat) :
    cursor ≤ skipLineComment text cursor fuel := by
  induction fuel generalizing cursor with
  | zero => simp [skipLineComment]
  | succ n ih =>
    unfold skipLineComment
    cases h : text[cursor]? with
    | none => simp
    | some c =>
      simp only
      split
      · exact le_trans (Nat.le_succ _) (ih (cursor + 1))
      · exact le_refl _

theorem skipDigits_le (text : Text) (cursor fuel : Nat) :
    cursor ≤ skipDigits text cursor fuel := by
  induction fuel generalizing cursor with
  | zero => simp [skipDigits]
  | succ n ih =>
    unfold skipDigits
    cases h : text[cursor]? with
    | none => simp
    | some c =>
      simp only
      split
      · exact le_trans (Nat.le_succ _) (ih (cursor + 1))
      · exact le_refl _

theorem skipIdentifier_le (text : Text) (cursor fuel : Nat) :
    cursor ≤ skipIdentifier text cursor fuel := by
  induction fuel generalizing cursor with
  | zero => simp [skipIdentifier]
  | succ n ih =>
    unfold skipIdentifier
    cases h : text[cursor + 1]? with
    | none => simp
    | some c =>
      simp only
      split
      · exact le_trans (Nat.le_succ _) (ih (cursor + 1))
      · exact le_refl _

theorem skipStringLit_le (text : Text) (cursor fuel : Nat) :
    cursor ≤ skipStringLit text cursor fuel := by
  induction fuel generalizing cursor with
  | zero => simp [skipStringLit]
  | succ n ih =>
    unfold skipStringLit
    cases h : text[cursor]? with
    | none => simp
    | some c =>
      simp only
      split
      · split
        · exact le_trans (by omega) (ih (cursor + 2))
        · exact le_trans (Nat.le_succ _) (ih (cursor + 1))
      · exact le_refl _

theorem skipLineComment_lt (text : Text) (cursor fuel : Nat) (c : Nat)
    (hc : text[cursor]? = some c) (hne : c ≠ 10) :
    cursor < skipLineComment text cursor (fuel + 1) := by
  unfold skipLineComment
  rw [hc]
  simp only [hne, if_pos, ne_eq, not_false_iff]
  calc cursor < cursor + 1 := Nat.lt_succ_self _
    _ ≤ _ := skipLineComment_le text (cursor + 1) fuel

theorem skipWhitespace_ok_inv (fuel : Nat) (s s' : LexState)
    (h : skipWhitespace s fuel = .ok s') :
    s'.text = s.text ∧ s.cursor ≤ s'.cursor ∧ s.line ≤ s'.line ∧
      (s.offset ≤ s.cursor → s'.offset ≤ s'.cursor) := by
  induction fuel generalizing s with
  | zero => simp [skipWhitespace] at h
  | succ n ih =>
    unfold skipWhitespace at h
    split at h
    · injection h with h
      subst h
      exact ⟨rfl, le_refl _, le_refl _, id⟩
    · split at h
      · split at h
        · obtain ⟨ht, hcur, hline, hoff⟩ := ih _ h
          exact ⟨ht, le_trans (Nat.le_succ _) hcur,
            le_trans (Nat.le_succ _) hline, fun _ => hoff (le_refl _)⟩
        · obtain ⟨ht, hcur, hline, hoff⟩ := ih _ h
          exact ⟨ht, le_trans (Nat.le_succ _) hcur, hline,
            fun ho => hoff (le_trans ho (Nat.le_succ _))⟩
      · split at h
        · obtain ⟨ht, hcur, hline, hoff⟩ := ih _ h
          exact ⟨ht, le_trans (skipLineComment_le _ _ _) hcur, hline,
            fun ho => hoff (le_trans ho (skipLineComment_le _ _ _))⟩
        · split at h
          · split at h
            · exact absurd h (by simp)
            · obtain ⟨ht, hcur, hline, hoff⟩ := ih _ h
              exact ⟨ht, le_trans (Nat.le_add_right s.cursor 4) hcur, hline,
                fun ho => hoff (le_trans ho (Nat.le_add_right s.cursor 4))⟩
          · injection h with h
            subst h
            exact ⟨rfl, le_refl _, le_refl _, id⟩

theorem keywordReclassify_ne_eof (l : List Nat) :
    keywordReclassify l ≠ TokenKind.eof := by
  unfold keywordReclassify
  repeat' split
  all_goals simp

theorem recogniseDefault_ok (s : LexState) (c : Nat) (k : TokenKind) (cur : Nat)
    (h : recogniseDefault s c = .ok (k, cur)) :
    s.cursor ≤ cur ∧ k ≠ TokenKind.eof := by
  unfold recogniseDefault at h
  repeat' split at h
  all_goals try exact Except.noConfusion h
  all_goals
    simp only [Except.ok.injEq, Prod.mk.injEq] at h
    obtain ⟨hk, hcur⟩ := h
    subst hk
    subst hcur
  all_goals
    first
      | exact ⟨skipDigits_le _ _ _, by simp⟩
      | exact ⟨skipIdentifier_le _ _ _, keywordReclassify_ne_eof _⟩
      | exact ⟨le_trans (Nat.le_succ _) (skipStringLit_le _ _ _), by simp⟩

theorem recognise_ok (s : LexState) (c : Nat) (k : TokenKind) (cur : Nat)
    (h : recognise s c = .ok (k, cur)) : s.cursor ≤ cur ∧ k ≠ TokenKind.eof := by
  unfold recognise at h
  repeat' split at h
  all_goals try exact recogniseDefault_ok _ _ _ _ h
  all_goals
    simp only [Except.ok.injEq, Prod.mk.injEq] at h
    obtain ⟨hk, hcur⟩ := h
    subst hk
    subst hcur
    refine ⟨?_, by simp⟩
  all_goals
    first
      | exact le_refl _
      | exact Nat.le_add_right _ 2

theorem getToken_ok_inv (s0 : LexState) (t : Token) (s' : LexState)
    (h : getToken s0 = .ok (t, s')) :
    s'.text = s0.text ∧ s0.cursor ≤ s'.cursor ∧ s0.line ≤ s'.line ∧
      t.line = s'.line ∧ t.offset = s'.offset ∧
      (s0.offset ≤ s0.cursor → t.offset ≤ t.begin ∧ s'.offset ≤ s'.cursor) ∧
      (t.kind ≠ TokenKind.eof → s0.cursor < s'.cursor ∧ s0.cursor < s0.text.length) := by
  unfold getToken at h
  split at h
  next e heq => exact Except.noConfusion h
  next s1 heq =>
    obtain ⟨ht1, hc1, hl1, ho1⟩ := skipWhitespace_ok_inv _ _ _ heq
    split at h
    next hnone =>
      injection h with h
      injection h with h1 h2
      subst h1
      subst h2
      exact ⟨ht1, hc1, hl1, rfl, rfl, fun ho => ⟨ho1 ho, ho1 ho⟩,
        fun hne => absurd rfl hne⟩
    next c hsome =>
      split at h
      next e hrec => exact Except.noConfusion h
      next k cur hrec =>
        obtain ⟨hge, hkne⟩ := recognise_ok _ _ _ _ hrec
        injection h with h
        injection h with h1 h2
        subst h1
        subst h2
        refine ⟨ht1, le_trans hc1 (le_trans hge (Nat.le_succ _)), hl1, rfl, rfl,
          ?_, ?_⟩
        · intro ho
          have hoc := ho1 ho
          exact ⟨hoc, le_trans hoc (le_trans hge (Nat.le_succ _))⟩
        · intro _
          have hlt : s1.cursor < s1.text.length := by
            by_contra hcon
            rw [List.getElem?_eq_none (Nat.le_of_not_lt hcon)] at hsome
            exact Option.noConfusion hsome
          refine ⟨Nat.lt_succ_of_le (le_trans hc1 hge), ?_⟩
          rw [← ht1]
          exact lt_of_le_of_lt hc1 hlt

theorem lt_of_getElem?_some {l : Text} {i c : Nat} (h : l[i]? = some c) :
    i < l.length := by
  by_contra hcon
  rw [List.getElem?_eq_none (Nat.le_of_not_lt hcon)] at h
  exact Option.noConfusion h

theorem tokenise_no_eof (fuel : Nat) (s : LexState) (ts : List Token)
    (h : tokenise s fuel = .ok ts) : ∀ t ∈ ts, t.kind ≠ TokenKind.eof := by
  induction fuel generalizing s ts with
  | zero => simp [tokenise] at h
  | succ n ih =>
    unfold tokenise at h
    split at h
    next e heq => exact Except.noConfusion h
    next t0 s1 heq =>
      split at h
      · injection h with h
        subst h
        intro t ht
        exact absurd ht (List.not_mem_nil t)
      next hne =>
        split at h
        next e heq2 => exact Except.noConfusion h
        next ts' heq2 =>
          injection h with h
          subst h
          intro t ht
          rcases List.mem_cons.mp ht with rfl | hmem
          · exact hne
          · exact ih _ _ heq2 t hmem

theorem tokenise_inv (fuel : Nat) (s : LexState) (ts : List Token)
    (h : tokenise s fuel = .ok ts) (hwf : s.offset ≤ s.cursor)
    (hl : 1 ≤ s.line) :
    (∀ t ∈ ts, s.line ≤ t.line ∧ 1 ≤ t.line ∧ t.offset ≤ t.begin) ∧
      ts.Pairwise (fun a b => a.line ≤ b.line) := by
  induction fuel generalizing s ts with
  | zero => simp [tokenise] at h
  | succ n ih =>
    unfold tokenise at h
    split at h
    next e heq => exact Except.noConfusion h
    next t0 s1 heq =>
      obtain ⟨ht1, hc1, hl1, htl, hto, hwfimp, _⟩ := getToken_ok_inv _ _ _ heq
      obtain ⟨htb, hwf1⟩ := hwfimp hwf
      split at h
      · injection h with h
        subst h
        exact ⟨fun t ht => absurd ht (List.not_mem_nil t), List.Pairwise.nil⟩
      next hne =>
        split at h
        next e heq2 => exact Except.noConfusion h
        next ts' heq2 =>
          injection h with h
          subst h
          obtain ⟨hall, hpair⟩ := ih s1 ts' heq2 hwf1 (le_trans hl hl1)
          refine ⟨?_, ?_⟩
          · intro t ht
            rcases List.mem_cons.mp ht with rfl | hmem
            · exact ⟨le_of_le_of_eq hl1 htl.symm,
                le_trans hl (le_of_le_of_eq hl1 htl.symm), htb⟩
            · obtain ⟨h1, h2, h3⟩ := hall t hmem
              exact ⟨le_trans hl1 h1, h2, h3⟩
          · refine List.Pairwise.cons ?_ hpair
            intro t ht
            exact le_trans (le_of_eq htl) (hall t ht).1

theorem skipWhitespace_ne_fuelOut (fuel : Nat) (s : LexState)
    (hfuel : s.text.length - s.cursor < fuel) :
    skipWhitespace s fuel ≠ .error .fuelOut := by
  induction fuel generalizing s with
  | zero => omega
  | succ n ih =>
    unfold skipWhitespace
    split
    next hnone => simp
    next c hsome =>
      have hcur : s.cursor < s.text.length := lt_of_getElem?_some hsome
      split
      · split
        · exact ih _ (show s.text.length - (s.cursor + 1) < n by omega)
        · exact ih _ (show s.text.length - (s.cursor + 1) < n by omega)
      next hws =>
        split
        · have hlc := skipLineComment_lt s.text s.cursor s.text.length c hsome
            (fun h10 => hws (Or.inr (Or.inl h10)))
          exact ih _
            (show s.text.length - skipLineComment s.text s.cursor (s.text.length + 1) < n by
              omega)
        · split
          · split
            · simp
            · exact ih _ (show s.text.length - (s.cursor + 2 + 2) < n by omega)
          · simp

theorem recogniseDefault_ne_fuelOut (s : LexState) (c : Nat) :
    recogniseDefault s c ≠ .error .fuelOut := by
  unfold recogniseDefault
  repeat' split
  all_goals simp

theorem recognise_ne_fuelOut (s : LexState) (c : Nat) :
    recognise s c ≠ .error .fuelOut := by
  unfold recognise
  repeat' split
  all_goals first
    | exact recogniseDefault_ne_fuelOut s c
    | simp

theorem getToken_ne_fuelOut (s : LexState) : getToken s ≠ .error .fuelOut := by
  unfold getToken
  split
  next e heq =>
    intro hcon
    injection hcon with hcon
    subst hcon
    exact skipWhitespace_ne_fuelOut (s.text.length + 1) s (by omega) heq
  next s1 heq =>
    split
    · simp
    next c hsome =>
      split
      next e2 hrec =>
        intro hcon
        injection hcon with hcon
        subst hcon
        exact recognise_ne_fuelOut s1 c hrec
      next k cur hrec => simp

theorem tokenise_ne_fuelOut (fuel : Nat) (s : LexState)
    (hfuel : s.text.length - s.cursor < fuel) :
    tokenise s fuel ≠ .error .fuelOut := by
  induction fuel generalizing s with
  | zero => omega
  | succ n ih =>
    unfold tokenise
    split
    next e heq =>
      intro hcon
      injection hcon with hcon
      subst hcon
      exact getToken_ne_fuelOut s heq
    next t0 s1 heq =>
      split
      · simp
      next hne =>
        split
        next e heq2 =>
          obtain ⟨ht1, hc1, -, -, -, -, hprogimp⟩ := getToken_ok_inv _ _ _ heq
          obtain ⟨hprog, hlen⟩ := hprogimp hne
          intro hcon
          injection hcon with hcon
          subst hcon
          exact ih s1 (by rw [ht1]; omega) heq2
        next ts heq2 => simp

/-! ### Claim theorems -/

/-- C1, counterexample: the claim says the stream returned by
`Lexer.tokenise` ends with an `eof` token, but for the non-empty source
`"a"` the returned stream is a single `identifier` token and contains no
`eof` token at all — `tokenise` uses the `eof` token only as the loop
sentinel and never appends it. -/
theorem C1_counterexample :
    tokeniseStr "a" = .ok [⟨.identifier, 0, 1, 1, 0⟩] ∧
      TokenKind.identifier ≠ TokenKind.eof :=
  ⟨rfl, by decide⟩

/-- C1, amended: for every source text on which tokenisation succeeds, the
token sequence returned by `Lexer.tokenise` contains no token of kind
`eof`; the internally produced `eof` token only terminates the collection
loop and is not part of the returned stream. -/
theorem C1_stream_has_no_eof (src : String) (ts : List Token)
    (h : tokeniseStr src = .ok ts) : ∀ t ∈ ts, t.kind ≠ TokenKind.eof :=
  tokenise_no_eof _ _ _ h

/-- Witness for C1: instantiating the amended theorem on the source `"a"`
and its single identifier token. -/
theorem C1_stream_has_no_eof_witness :
    (⟨TokenKind.identifier, 0, 1, 1, 0⟩ : Token).kind ≠ TokenKind.eof :=
  C1_stream_has_no_eof "a" [⟨TokenKind.identifier, 0, 1, 1, 0⟩] rfl
    ⟨TokenKind.identifier, 0, 1, 1, 0⟩ (List.mem_singleton_self _)

/-- C2: parsing the token stream of `@extern fn foo(): u32 { }` does not
yield a `Program` with one extern; `Parser.get_directive` evaluates the
misspelled value pattern `TokenKind.indentifier` and the run aborts with an
`AttributeError` before any function definition is parsed. -/
theorem C2_parse_extern_crashes :
    parseStr "hello.mcs" "@extern fn foo(): u32 \x7b \x7d" =
      .error (.attributeError "type object TokenKind has no attribute indentifier") :=
  rfl

/-- C3: the integer token produced from source `"1;"` spans `[0, 2)`, so its
lexeme `s[t.begin:t.end]` is `"1;"` — which contains the non-digit `';'`
(code point 59) — because the digit loop leaves the cursor one past the
digit run and the unconditional `advance(1)` then swallows one more
character. -/
theorem C3_integer_lexeme_not_all_digits :
    tokeniseStr "1;" = .ok [⟨.integer, 0, 2, 1, 0⟩] ∧
      (toText "1;").take 2 = [49, 59] ∧ isDigit 59 = false :=
  ⟨rfl, rfl, rfl⟩

/-- C4: for the one-character source `"1"` the lexer emits an integer token
with `begin = 0` and `end = 2 > length(source) = 1`, violating the claimed
invariant `begin ≤ end ≤ length(source)`. -/
theorem C4_token_end_exceeds_length :
    tokeniseStr "1" = .ok [⟨.integer, 0, 2, 1, 0⟩] ∧
      (toText "1").length < 2 :=
  ⟨rfl, by decide⟩

/-- C5: the line-comment half of the claim holds (two identifier tokens,
`b` on line 2), but tokenising `"a /* x \n y */ b"` does not yield two
tokens: the block-comment loop body calls the nonexistent method
`Lexer.get_char` and the run aborts with an `AttributeError`. -/
theorem C5_comment_transparency :
    tokeniseStr "a // comment\nb" =
      .ok [⟨.identifier, 0, 1, 1, 0⟩, ⟨.identifier, 13, 14, 2, 13⟩] ∧
    tokeniseStr "a /* x \n y */ b" =
      .error (.attributeError "Lexer object has no attribute get_char") :=
  ⟨rfl, rfl⟩

/-- C6: the source `".."` — two dots not followed by a third — does not
fault; the lexer emits a `dotdotdot` token (spanning `[0, 3)` past the end
of the input), because the third-dot check re-reads `text[cursor+1]`, the
second dot, instead of `text[cursor+2]`. -/
theorem C6_two_dots_lex_as_dotdotdot :
    tokeniseStr ".." = .ok [⟨.dotdotdot, 0, 3, 1, 0⟩] :=
  rfl

/-- C7: reaching end of input inside a string literal or a block comment
does not fault: the unterminated string `"abc` yields a `string` token
(with `end = length + 1`), and the unterminated block comment `/*` yields a
successful empty stream — no fault and no reported position in either
case. -/
theorem C7_unterminated_no_fault :
    tokeniseStr "\"abc" = .ok [⟨.string, 0, 5, 1, 0⟩] ∧
      tokeniseStr "/*" = .ok [] :=
  ⟨rfl, rfl⟩

/-- C8: a lexer fault (invalid character `'#'` in `"#a"`) is not reported as
`<line>:<column>:<path>: <message>`: `Lexer.error` passes a non-f-string to
the logger, so the line written to the error channel is the raw template
with literal `{self.line}` placeholders and the message dropped (the exit
status 1 part does hold on this path). -/
theorem C8_lexer_fault_line_uninterpolated :
    tokeniseStr "#a" = .error (.exit1 lexerFaultLine) ∧
      lexerFaultLine =
        "ERROR:\x7bself.line\x7d:\x7bself.cursor-self.offset+1\x7d:\x7bself.path\x7d:Lexer: \x7bmsg\x7d" :=
  ⟨rfl, rfl⟩

/-- C9: tokenisation terminates on every finite source: every `get_token`
call that returns a non-`eof` token strictly increases the cursor, and the
canonical fuel (`length + 1`, an upper bound on the loop trips, each of
which consumes at least one character while in range) is never exhausted,
so `tokenise` never ends by running out of fuel. -/
theorem C9_tokenise_terminates :
    (∀ (s : LexState) (t : Token) (s' : LexState),
        getToken s = .ok (t, s') → t.kind ≠ TokenKind.eof →
          s.cursor < s'.cursor) ∧
      (∀ src : String, tokeniseStr src ≠ .error .fuelOut) := by
  constructor
  · intro s t s' h hne
    obtain ⟨-, -, -, -, -, -, hprog⟩ := getToken_ok_inv _ _ _ h
    exact (hprog hne).1
  · intro src
    exact tokenise_ne_fuelOut _ _
      (show (toText src).length - 0 < (toText src).length + 1 by omega)

/-- Witness for C9: the progress part instantiated on the source `"a"`
(cursor 0 to cursor 1), and the no-fuel-exhaustion part on the same
source. -/
theorem C9_tokenise_terminates_witness :
    (⟨toText "a", 0, 0, 1⟩ : LexState).cursor <
        (⟨toText "a", 1, 0, 1⟩ : LexState).cursor ∧
      tokeniseStr "a" ≠ .error .fuelOut :=
  ⟨C9_tokenise_terminates.1 ⟨toText "a", 0, 0, 1⟩ ⟨.identifier, 0, 1, 1, 0⟩
      ⟨toText "a", 1, 0, 1⟩ rfl (by decide),
    C9_tokenise_terminates.2 "a"⟩

/-- C10: in the token sequence returned by `Lexer.tokenise` for any input,
the `line` fields are monotonically non-decreasing, every token's line is
at least 1, and every token's `offset` (its line-start offset) is at most
its `begin`. -/
theorem C10_line_fields_invariant (src : String) (ts : List Token)
    (h : tokeniseStr src = .ok ts) :
    ts.Pairwise (fun a b => a.line ≤ b.line) ∧
      ∀ t ∈ ts, 1 ≤ t.line ∧ t.offset ≤ t.begin := by
  obtain ⟨hall, hpair⟩ :=
    tokenise_inv _ _ _ h (Nat.le_refl 0) (Nat.le_refl 1)
  exact ⟨hpair, fun t ht => ⟨(hall t ht).2.1, (hall t ht).2.2⟩⟩

/-- Witness for C10: instantiating the theorem on the two-line source
`"a\nb"` and its two identifier tokens. -/
theorem C10_line_fields_invariant_witness :
    ([⟨TokenKind.identifier, 0, 1, 1, 0⟩,
        ⟨TokenKind.identifier, 2, 3, 2, 2⟩] : List Token).Pairwise
        (fun a b => a.line ≤ b.line) ∧
      ∀ t ∈ ([⟨TokenKind.identifier, 0, 1, 1, 0⟩,
          ⟨TokenKind.identifier, 2, 3, 2, 2⟩] : List Token),
        1 ≤ t.line ∧ t.offset ≤ t.begin :=
  C10_line_fields_invariant "a\nb"
    [⟨TokenKind.identifier, 0, 1, 1, 0⟩, ⟨TokenKind.identifier, 2, 3, 2, 2⟩] rfl
